import Mathlib

/-!
Verification of the iconocolor color derivation and inheritance engine.

The definitions below are a shallow embedding of the plugin's color engine:
`src/utils/colorUtils.ts` (color math) and the `FolderManager` resolver methods
(`getBaseColor`, `getComputedOpacity`, `applyChildBaseTransformation`,
`applyGradientTransformation`, `getChildrenFolders`, `getRootFolders`,
`generateAutoColors`, `setFolderConfig`) together with the merge performed by
`IconocolorPlugin.openFolderConfigModal`.

JavaScript numbers are modelled as exact rationals (`ℚ`), `Math.round` as
floor of `x + 1/2` (which is the ECMAScript rounding rule), strings as Lean
`String`s manipulated through their character lists, and `undefined`-able
values as `Option`s.  The vault collaborator (`app.vault.getAllFolders()`) is
modelled as a plain list of folder paths.
-/

attribute [local semireducible] Rat.add Rat.mul Rat.inv Rat.sub

/-- JS `Math.round`: round half toward positive infinity. -/
def jsRound (q : ℚ) : ℤ := ⌊q + 1/2⌋

/-- JS `Math.trunc`-style truncation used by the `%` operator on numbers. -/
def jsTrunc (q : ℚ) : ℤ := if 0 ≤ q then ⌊q⌋ else ⌈q⌉

/-- JS `%` on numbers: remainder carrying the dividend's sign. -/
def jsMod (a b : ℚ) : ℚ := a - b * (jsTrunc (a / b) : ℚ)

/-- An RGB triple as produced by `hexToRgb` (each channel in 0–255). -/
structure Rgb where
  r : ℕ
  g : ℕ
  b : ℕ
deriving DecidableEq, Repr

/-- An RGB triple as produced by `hslToRgb` (rounded JS numbers). -/
structure RgbI where
  r : ℤ
  g : ℤ
  b : ℤ
deriving DecidableEq, Repr

/-- An HSL triple as produced by `rgbToHsl` (`h` in degrees, `s`, `l` in percent). -/
structure Hsl where
  h : ℚ
  s : ℚ
  l : ℚ
deriving DecidableEq, Repr

/-- The character class `[a-f\d]` of the source's hex regex (case-insensitive). -/
def isHexDigitChar (c : Char) : Bool :=
  ('0' ≤ c && c ≤ '9') || ('a' ≤ c && c ≤ 'f') || ('A' ≤ c && c ≤ 'F')

/-- Value of one hex digit, as `parseInt(_, 16)` reads it. -/
def hexDigitVal (c : Char) : ℕ :=
  if '0' ≤ c && c ≤ '9' then c.toNat - '0'.toNat
  else if 'a' ≤ c && c ≤ 'f' then c.toNat - 'a'.toNat + 10
  else c.toNat - 'A'.toNat + 10

/-- `hexToRgb`: matches `/^#?([a-f\d]{2})([a-f\d]{2})([a-f\d]{2})$/i` and parses
the three channel pairs with `parseInt(_, 16)`; `null` (here `none`) otherwise. -/
def hexToRgb (hex : String) : Option Rgb :=
  let cs := match hex.data with
    | '#' :: rest => rest
    | other => other
  match cs with
  | [c1, c2, c3, c4, c5, c6] =>
    if [c1, c2, c3, c4, c5, c6].all isHexDigitChar then
      some ⟨16 * hexDigitVal c1 + hexDigitVal c2,
            16 * hexDigitVal c3 + hexDigitVal c4,
            16 * hexDigitVal c5 + hexDigitVal c6⟩
    else none
  | _ => none

/-- JS `Number.prototype.toString(16)` for integers: lowercase hex digits,
with a leading `-` for negative values. -/
def jsHexString (x : ℤ) : String :=
  if x < 0 then "-" ++ String.mk (Nat.toDigits 16 x.natAbs)
  else String.mk (Nat.toDigits 16 x.toNat)

/-- One channel of `rgbToHex`: `toString(16)` left-padded with `0` to length 2. -/
def hexChannel (x : ℤ) : String :=
  let h := jsHexString x
  if h.length = 1 then "0" ++ h else h

/-- `rgbToHex`: `'#' + [r, g, b].map(two-digit hex).join('')` (unrolled). -/
def rgbToHex (r g b : ℤ) : String :=
  "#" ++ hexChannel r ++ hexChannel g ++ hexChannel b

/-- `interpolateColor`: channel-wise linear interpolation, rounded; returns the
first color unchanged if either input fails to parse. -/
def interpolateColor (color1 color2 : String) (factor : ℚ) : String :=
  match hexToRgb color1, hexToRgb color2 with
  | some c1, some c2 =>
      rgbToHex (jsRound ((c1.r : ℚ) + ((c2.r : ℚ) - (c1.r : ℚ)) * factor))
               (jsRound ((c1.g : ℚ) + ((c2.g : ℚ) - (c1.g : ℚ)) * factor))
               (jsRound ((c1.b : ℚ) + ((c2.b : ℚ) - (c1.b : ℚ)) * factor))
  | _, _ => color1

/-- The loop body of `generateGradientColors` in the `count > palette.length`
branch: the color emitted at output position `i`. -/
def gradientColorAt (palette : List String) (count i : ℕ) : String :=
  let position : ℚ := (i : ℚ) / ((count : ℚ) - 1)
  let segments : ℕ := palette.length - 1
  let segmentIndex : ℤ := min ⌊position * (segments : ℚ)⌋ ((segments : ℤ) - 1)
  let segmentStart : ℚ := (segmentIndex : ℚ) / (segments : ℚ)
  let segmentEnd : ℚ := ((segmentIndex : ℚ) + 1) / (segments : ℚ)
  let segmentFactor : ℚ := (position - segmentStart) / (segmentEnd - segmentStart)
  interpolateColor (palette.getD segmentIndex.toNat "")
    (palette.getD (segmentIndex.toNat + 1) "") segmentFactor

/-- `generateGradientColors`: empty palette gives `[]`; a single-color palette is
repeated `count` times; `count ≤ palette.length` gives `palette.slice(0, count)`;
otherwise each output position is interpolated inside its palette segment. -/
def generateGradientColors (palette : List String) (count : ℕ) : List String :=
  match palette with
  | [] => []
  | [c] => List.replicate count c
  | _ =>
    if count ≤ palette.length then palette.take count
    else (List.range count).map (gradientColorAt palette count)

/-- `generateRepeatingColors`: cycles the palette via modulo index. -/
def generateRepeatingColors (palette : List String) (count : ℕ) : List String :=
  if palette.length = 0 then []
  else (List.range count).map (fun i => palette.getD (i % palette.length) "")

/-- `rgbToHsl`: standard RGB→HSL; hue in degrees, saturation/lightness in percent. -/
def rgbToHsl (r0 g0 b0 : ℚ) : Hsl :=
  let r := r0 / 255
  let g := g0 / 255
  let b := b0 / 255
  let mx := max r (max g b)
  let mn := min r (min g b)
  let l := (mx + mn) / 2
  if mx = mn then ⟨0, 0, l * 100⟩
  else
    let d := mx - mn
    let s := if l > 1/2 then d / (2 - mx - mn) else d / (mx + mn)
    let h :=
      if mx = r then ((g - b) / d + (if g < b then (6 : ℚ) else 0)) / 6
      else if mx = g then ((b - r) / d + 2) / 6
      else ((r - g) / d + 4) / 6
    ⟨h * 360, s * 100, l * 100⟩

/-- The `hue2rgb` helper of `hslToRgb` (argument is wrapped into `[0,1]` first). -/
def hue2rgb (p q t0 : ℚ) : ℚ :=
  let t1 := if t0 < 0 then t0 + 1 else t0
  let t := if t1 > 1 then t1 - 1 else t1
  if t < 1/6 then p + (q - p) * 6 * t
  else if t < 1/2 then q
  else if t < 2/3 then p + (q - p) * (2/3 - t) * 6
  else p

/-- `hslToRgb`: standard HSL→RGB with each channel rounded to an integer. -/
def hslToRgb (h0 s0 l0 : ℚ) : RgbI :=
  let h := h0 / 360
  let s := s0 / 100
  let l := l0 / 100
  if s = 0 then
    let c := jsRound (l * 255)
    ⟨c, c, c⟩
  else
    let q := if l < 1/2 then l * (1 + s) else l + s - l * s
    let p := 2 * l - q
    ⟨jsRound (hue2rgb p q (h + 1/3) * 255),
     jsRound (hue2rgb p q h * 255),
     jsRound (hue2rgb p q (h - 1/3) * 255)⟩

/-- The `{ hue?, saturation?, lightness? }` argument of `applyHSLTransformation`. -/
structure HSLAdjust where
  hue : Option ℚ
  saturation : Option ℚ
  lightness : Option ℚ
deriving DecidableEq

/-- `applyHSLTransformation`: hue shifted mod 360, saturation/lightness shifted and
clamped to [0,100]; the input is returned unchanged when it fails to parse. -/
def applyHSLTransformation (hex : String) (transformation : HSLAdjust) : String :=
  match hexToRgb hex with
  | none => hex
  | some rgb =>
    let hsl := rgbToHsl (rgb.r : ℚ) (rgb.g : ℚ) (rgb.b : ℚ)
    let h := match transformation.hue with
      | some hu => jsMod (hsl.h + hu + 360) 360
      | none => hsl.h
    let s := match transformation.saturation with
      | some sa => max 0 (min 100 (hsl.s + sa))
      | none => hsl.s
    let l := match transformation.lightness with
      | some li => max 0 (min 100 (hsl.l + li))
      | none => hsl.l
    let newRgb := hslToRgb h s l
    rgbToHex newRgb.r newRgb.g newRgb.b

/-- `applyLightnessTransformation`: lightness shifted and clamped to [0,100];
the input is returned unchanged when it fails to parse. -/
def applyLightnessTransformation (hex : String) (adjustment : ℚ) : String :=
  match hexToRgb hex with
  | none => hex
  | some rgb =>
    let hsl := rgbToHsl (rgb.r : ℚ) (rgb.g : ℚ) (rgb.b : ℚ)
    let newL := max 0 (min 100 (hsl.l + adjustment))
    let newRgb := hslToRgb hsl.h hsl.s newL
    rgbToHex newRgb.r newRgb.g newRgb.b

/-! ### Data model (`src/types.ts`) -/

/-- The `type` discriminant of `ColorTransformation` / `ChildBaseTransformation`. -/
inductive TransformationType where
  | hsl
  | lightness
  | none
deriving DecidableEq

/-- `FolderConfig`: per-folder override record; all fields optional. -/
structure FolderConfig where
  icon : Option String := Option.none
  baseColor : Option String := Option.none
  iconColor : Option String := Option.none
  folderColor : Option String := Option.none
  textColor : Option String := Option.none
  applyToSubfolders : Option Bool := Option.none
  inheritBaseColor : Option Bool := Option.none
deriving DecidableEq

/-- `FolderConfigWithDeletions`: a `FolderConfig` plus the deletion flags set by
the folder-config modal. -/
structure FolderConfigWithDeletions extends FolderConfig where
  __deleteBaseColor : Option Bool := Option.none
  __deleteIconColor : Option Bool := Option.none
  __deleteFolderColor : Option Bool := Option.none
  __deleteTextColor : Option Bool := Option.none
deriving DecidableEq

/-- `ColorPalette`. -/
structure ColorPalette where
  name : String
  colors : List String
deriving DecidableEq

/-- `autoColorMode: 'gradient' | 'repeat'`. -/
inductive AutoColorMode where
  | gradient
  | repeating
deriving DecidableEq

/-- `ChildBaseTransformation`: type discriminant plus the optional numeric fields,
`useGradient` and `backgroundOpacity`. -/
structure ChildBaseTransformation where
  type : TransformationType
  hue : Option ℚ := Option.none
  saturation : Option ℚ := Option.none
  lightness : Option ℚ := Option.none
  adjustment : Option ℚ := Option.none
  useGradient : Option Bool := Option.none
  backgroundOpacity : Option ℚ := Option.none
deriving DecidableEq

/-- The fields of `IconocolorSettings` read by the embedded operations (the
remaining fields — icon size, element-color transformations, icon rules,
profiles — are not consulted by the functions under verification). -/
structure IconocolorSettings where
  folderConfigs : List (String × FolderConfig)
  colorPalettes : List ColorPalette
  activePaletteIndex : ℕ
  autoColorEnabled : Bool
  autoColorMode : AutoColorMode
  childBaseTransformation : ChildBaseTransformation
  folderColorOpacity : ℚ
deriving DecidableEq

/-- The vault collaborator: `app.vault.getAllFolders()` as a list of folder paths. -/
structure Vault where
  allFolders : List String
deriving DecidableEq

/-! ### Path and truthiness helpers -/

/-- JS truthiness of a `string | undefined` value: `undefined` and `""` are falsy. -/
def truthyStr : Option String → Bool
  | Option.some s => !(s == "")
  | Option.none => false

/-- JS truthiness of a `boolean | undefined` value. -/
def truthyBool : Option Bool → Bool
  | Option.some b => b
  | Option.none => false

/-- JS `str.split('/')` on the character list (the separator is one character). -/
def splitSlash : List Char → List (List Char)
  | [] => [[]]
  | c :: cs =>
    if c = '/' then [] :: splitSlash cs
    else
      match splitSlash cs with
      | s :: rest => (c :: s) :: rest
      | [] => [[c]]

/-- JS `path.split('/')`. -/
def splitP (s : String) : List String := (splitSlash s.data).map String.mk

/-- JS `parts.join('/')` on character lists. -/
def joinChars : List (List Char) → List Char
  | [] => []
  | [s] => s
  | s :: rest => s ++ '/' :: joinChars rest

/-- JS `parts.join('/')`. -/
def joinP (l : List String) : String := String.mk (joinChars (l.map String.data))

/-- `this.settings.folderConfigs[folderPath]` (record field access). -/
def lookupConfig (s : IconocolorSettings) (path : String) : Option FolderConfig :=
  s.folderConfigs.lookup path

/-! ### Sibling/root enumeration -/

/-- Lexicographic `≤` on character lists by code point. -/
def lexLe : List Char → List Char → Bool
  | [], _ => true
  | _ :: _, [] => false
  | a :: as, b :: bs =>
    if a.toNat < b.toNat then true
    else if b.toNat < a.toNat then false
    else lexLe as bs

/-- The sort comparator `(a, b) => a.toLowerCase().localeCompare(b.toLowerCase())`
as a `≤` test (code-point order on the lowercased names). -/
def lowerLe (a b : String) : Bool :=
  lexLe (a.data.map Char.toLower) (b.data.map Char.toLower)

/-- Stable insertion into a list sorted by `lowerLe`. -/
def insertSortedCI (x : String) : List String → List String
  | [] => [x]
  | y :: ys => if lowerLe x y then x :: y :: ys else y :: insertSortedCI x ys

/-- Stable case-insensitive sort, modelling `Array.prototype.sort` with the
case-insensitive comparator used by the source. -/
def sortCI (l : List String) : List String := l.foldr insertSortedCI []

/-- The `seen`-set deduplication loop of `getRootFolders` (keeps first occurrences). -/
def dedupFirst : List String → List String → List String
  | [], _ => []
  | x :: xs, seen => if seen.contains x then dedupFirst xs seen else x :: dedupFirst xs (x :: seen)

/-- `getRootFolders`: vault folders whose path has exactly one segment, deduplicated
and sorted case-insensitively.  (The 5-second cache only memoizes this pure value,
so it is modelled as the uncached computation.) -/
def getRootFolders (v : Vault) : List String :=
  sortCI (dedupFirst (v.allFolders.filter (fun fp => (splitP fp).length == 1)) [])

/-- `getChildrenFolders`: names of direct children of `parentPath`, sorted
case-insensitively. -/
def getChildrenFolders (v : Vault) (parentPath : String) : List String :=
  sortCI (v.allFolders.filterMap (fun folderPath =>
    let pathParts := splitP folderPath
    if pathParts.length == (splitP parentPath).length + 1 then
      if joinP pathParts.dropLast == parentPath then Option.some (pathParts.getLastD "")
      else Option.none
    else Option.none))

/-- `generateAutoColors`: the auto-color sequence for the root folders, from the
active palette and the global auto-color mode. -/
def generateAutoColors (s : IconocolorSettings) (rootFolders : List String) : List String :=
  if rootFolders.length = 0 then []
  else
    match s.colorPalettes[s.activePaletteIndex]? with
    | Option.none => []
    | Option.some activePalette =>
      if activePalette.colors.length = 0 then []
      else
        match s.autoColorMode with
        | AutoColorMode.gradient => generateGradientColors activePalette.colors rootFolders.length
        | AutoColorMode.repeating => generateRepeatingColors activePalette.colors rootFolders.length

/-! ### Ancestor walk and opacity resolver -/

/-- `ancestorConfig && ancestorConfig.inheritBaseColor === false` at one key. -/
def inheritDisabledAt (s : IconocolorSettings) (key : String) : Bool :=
  match lookupConfig s key with
  | Option.some c => c.inheritBaseColor == Option.some false
  | Option.none => false

/-- The ancestor walk `for (let i = pathParts.length - 1; i > 0; i--)`: true iff
some strict ancestor's override disables inheritance. -/
def anyAncestorDisabled (s : IconocolorSettings) (segs : List String) : Bool :=
  (List.range' 1 (segs.length - 1)).any (fun i => inheritDisabledAt s (joinP (segs.take i)))

/-- `(childBaseTransformation.backgroundOpacity ?? 100) / 100` as computed by
`getComputedOpacity`. -/
def childOpacityFactor (s : IconocolorSettings) : ℚ :=
  match s.childBaseTransformation.backgroundOpacity with
  | Option.some bo => bo / 100
  | Option.none => 1

/-- `getComputedOpacity` on path segments.  The fuel argument bounds the recursion
into the parent path; it is always instantiated with the segment count, which makes
every recursive call run at fuel equal to its own segment count. -/
def getComputedOpacityF (s : IconocolorSettings) : ℕ → List String → ℚ
  | 0, _ => 0
  | fuel + 1, segs =>
    if segs.length == 1 then s.folderColorOpacity
    else if anyAncestorDisabled s segs then 0
    else max 0 (min 100 (getComputedOpacityF s fuel segs.dropLast * childOpacityFactor s))

/-- `getComputedOpacity(folderPath)`. -/
def getComputedOpacity (s : IconocolorSettings) (folderPath : String) : ℚ :=
  getComputedOpacityF s (splitP folderPath).length (splitP folderPath)

/-! ### Base-color resolver

`getBaseColor` recurses into the immediate parent and (in gradient mode, through
`applyGradientTransformation`) into the parent's next sibling — all paths with
fewer segments than the query.  The recursion is therefore presented with the
resolver abstracted as a function argument `getBase` in the two helpers, and tied
with a fuel equal to the segment count in `getBaseColorF`; every recursive call
then again runs at fuel equal to its own argument's segment count, so the fuel
never cuts a reachable computation short. -/

/-- `applyGradientTransformation(parentBaseColor, childPath, parentPath)` with the
base-color resolver abstracted as `getBase` (the source passes delimiter-joined
strings; here paths travel as their segment lists). -/
def applyGradientTransformationG (v : Vault) (getBase : List String → Option String)
    (parentBaseColor : String) (childSegs parentSegs : List String) : String :=
  let parentPath := joinP parentSegs
  let parentChildren := getChildrenFolders v parentPath
  if parentChildren.length = 0 then parentBaseColor
  else
    let childName := (childSegs.getLast?).getD ""
    match parentChildren.findIdx? (· == childName) with
    | Option.none => parentBaseColor
    | Option.some childIndex =>
      let nextSiblingBaseColor : Option String :=
        match parentSegs with
        | [] => Option.none
        | [_] =>
          let rootFolders := getRootFolders v
          match rootFolders.findIdx? (· == parentPath) with
          | Option.some parentIndex =>
            if parentIndex + 1 < rootFolders.length then
              match rootFolders[parentIndex + 1]? with
              | Option.some nextRootPath => getBase (splitP nextRootPath)
              | Option.none => Option.none
            else Option.none
          | Option.none => Option.none
        | _ :: _ :: _ =>
          let parentSiblings := getChildrenFolders v (joinP parentSegs.dropLast)
          let parentName := parentSegs.getLastD ""
          match parentSiblings.findIdx? (· == parentName) with
          | Option.some parentSiblingIndex =>
            if parentSiblingIndex + 1 < parentSiblings.length then
              match parentSiblings[parentSiblingIndex + 1]? with
              | Option.some nextSiblingName => getBase (parentSegs.dropLast ++ [nextSiblingName])
              | Option.none => Option.none
            else Option.none
          | Option.none => Option.none
      if !(truthyStr nextSiblingBaseColor) then parentBaseColor
      else
        let nextColor := nextSiblingBaseColor.getD ""
        let totalSteps := parentChildren.length + 2
        let stepIndex := childIndex + 1
        let step : ℚ := if totalSteps > 2 then (stepIndex : ℚ) / ((totalSteps : ℚ) - 1) else 1/2
        let clampedStep := max 0 (min 1 step)
        interpolateColor parentBaseColor nextColor clampedStep

/-- `applyChildBaseTransformation(parentBaseColor, childPath, parentPath)` with the
base-color resolver abstracted as `getBase`.  A `'none'` transformation type
returns the empty string, the source's "no inheritance" signal. -/
def applyChildBaseTransformationG (s : IconocolorSettings) (v : Vault)
    (getBase : List String → Option String)
    (parentBaseColor : String) (childSegs parentSegs : List String) : String :=
  let transformation := s.childBaseTransformation
  if transformation.type == TransformationType.none then ""
  else
    let baseColor :=
      if truthyBool transformation.useGradient then
        applyGradientTransformationG v getBase parentBaseColor childSegs parentSegs
      else parentBaseColor
    if transformation.type == TransformationType.hsl then
      applyHSLTransformation baseColor
        ⟨transformation.hue, transformation.saturation, transformation.lightness⟩
    else if transformation.type == TransformationType.lightness
        && transformation.adjustment.isSome then
      applyLightnessTransformation baseColor (transformation.adjustment.getD 0)
    else baseColor

/-- One unfolding of `getBaseColor` on path segments, with the recursive resolver
abstracted as `rec`: explicit truthy `baseColor` override first; then root-level
auto-coloring; then parent inheritance guarded by the ancestor walk and by the
`'none'` child-transformation check. -/
def getBaseColorBody (s : IconocolorSettings) (v : Vault)
    (rec : List String → Option String) (segs : List String) : Option String :=
  let folderPath := joinP segs
  let config := lookupConfig s folderPath
  let explicit := config.bind (fun c => c.baseColor)
  if truthyStr explicit then explicit
  else if segs.length == 1 then
    if s.autoColorEnabled then
      let rootFolders := getRootFolders v
      match rootFolders.findIdx? (· == folderPath) with
      | Option.some rootIndex =>
        let autoColors := generateAutoColors s rootFolders
        if rootIndex < autoColors.length then autoColors[rootIndex]? else Option.none
      | Option.none => Option.none
    else Option.none
  else if anyAncestorDisabled s segs then Option.none
  else
    let parentBaseColor := rec segs.dropLast
    if truthyStr parentBaseColor then
      let transformedColor :=
        applyChildBaseTransformationG s v rec (parentBaseColor.getD "") segs segs.dropLast
      if transformedColor == "" && s.childBaseTransformation.type == TransformationType.none then
        Option.none
      else if transformedColor == "" then Option.none
      else Option.some transformedColor
    else Option.none

/-- Fuel-indexed `getBaseColor` on path segments. -/
def getBaseColorF (s : IconocolorSettings) (v : Vault) : ℕ → List String → Option String
  | 0 => fun _ => Option.none
  | fuel + 1 => getBaseColorBody s v (getBaseColorF s v fuel)

/-- `getBaseColor(folderPath)`. -/
def getBaseColor (s : IconocolorSettings) (v : Vault) (folderPath : String) : Option String :=
  getBaseColorF s v (splitP folderPath).length (splitP folderPath)

/-! ### Override mutation (`setFolderConfig`) and the config modal's merge -/

/-- `if (new !== undefined) merged.field = new` starting from `merged = {...existing}`. -/
def mergeField {α : Type} (newVal oldVal : Option α) : Option α :=
  match newVal with
  | Option.some x => Option.some x
  | Option.none => oldVal

/-- `Object.keys(config).length` for a `FolderConfig` (counts the set fields). -/
def configFieldCount (c : FolderConfig) : ℕ :=
  (if c.icon.isSome then 1 else 0) + (if c.baseColor.isSome then 1 else 0)
    + (if c.iconColor.isSome then 1 else 0) + (if c.folderColor.isSome then 1 else 0)
    + (if c.textColor.isSome then 1 else 0) + (if c.applyToSubfolders.isSome then 1 else 0)
    + (if c.inheritBaseColor.isSome then 1 else 0)

/-- `delete this.settings.folderConfigs[path]`. -/
def eraseConfig (m : List (String × FolderConfig)) (path : String) :
    List (String × FolderConfig) :=
  m.filter (fun e => !(e.1 == path))

/-- `this.settings.folderConfigs[path] = merged` (one binding per key). -/
def storeConfig (m : List (String × FolderConfig)) (path : String) (c : FolderConfig) :
    List (String × FolderConfig) :=
  (path, c) :: eraseConfig m path

/-- `FolderManager.setFolderConfig(path, config)`: merge `config` over the existing
record field by field (only fields that are set replace), then prune the record if
the merge left no set field.  The runtime value passed by the config modal may
carry `__delete*` flags; the function body never consults them, exactly as the
source only reads the seven `FolderConfig` fields. -/
def setFolderConfig (s : IconocolorSettings) (path : String)
    (config : FolderConfigWithDeletions) : IconocolorSettings :=
  let existing := (lookupConfig s path).getD {}
  let merged : FolderConfig := {
    icon := mergeField config.icon existing.icon
    baseColor := mergeField config.baseColor existing.baseColor
    iconColor := mergeField config.iconColor existing.iconColor
    folderColor := mergeField config.folderColor existing.folderColor
    textColor := mergeField config.textColor existing.textColor
    applyToSubfolders := mergeField config.applyToSubfolders existing.applyToSubfolders
    inheritBaseColor := mergeField config.inheritBaseColor existing.inheritBaseColor }
  if configFieldCount merged = 0 then
    { s with folderConfigs := eraseConfig s.folderConfigs path }
  else
    { s with folderConfigs := storeConfig s.folderConfigs path merged }

/-- The merge performed by `IconocolorPlugin.openFolderConfigModal` before calling
`setFolderConfig`: the modal result's set fields are copied, and each of the four
color fields present in the original config but now undefined in the result is
marked with the corresponding `__delete*` flag. -/
def openFolderConfigModalMerge (originalConfig result : FolderConfig) :
    FolderConfigWithDeletions :=
  { toFolderConfig := result
    __deleteBaseColor :=
      if originalConfig.baseColor.isSome && result.baseColor.isNone then Option.some true
      else Option.none
    __deleteIconColor :=
      if originalConfig.iconColor.isSome && result.iconColor.isNone then Option.some true
      else Option.none
    __deleteFolderColor :=
      if originalConfig.folderColor.isSome && result.folderColor.isNone then Option.some true
      else Option.none
    __deleteTextColor :=
      if originalConfig.textColor.isSome && result.textColor.isNone then Option.some true
      else Option.none }

/-! ### Derived pipeline and concrete configurations used in the statements -/

/-- The spec's round-trip test pipeline
`rgbToHex(hslToRgb(rgbToHsl(hexToRgb(c))))` (the input is returned unchanged when
it fails to parse, so the pipeline is total). -/
def hslRoundTrip (c : String) : String :=
  match hexToRgb c with
  | Option.some rgb =>
    let hsl := rgbToHsl (rgb.r : ℚ) (rgb.g : ℚ) (rgb.b : ℚ)
    let rgb2 := hslToRgb hsl.h hsl.s hsl.l
    rgbToHex rgb2.r rgb2.g rgb2.b
  | Option.none => c

/-- Decidable check that `hexChannel` prints a value below 256 as two hex digits
that parse back to it (used to verify the print/parse round trip). -/
def hexChannelOkB (n : ℕ) : Bool :=
  match (hexChannel (n : ℤ)).data with
  | [x, y] => isHexDigitChar x && isHexDigitChar y && (16 * hexDigitVal x + hexDigitVal y == n)
  | _ => false

/-- How `getBaseColor` reads a config record's `baseColor`: the value survives only
the truthiness test (`config?.baseColor`).  Used to state the observational
equivalence of override records that differ only in a falsy `baseColor`. -/
def baseColorRead (oc : Option FolderConfig) : Option String :=
  let e := oc.bind (fun c => c.baseColor)
  if truthyStr e then e else Option.none

/-- A settings template shared by the concrete scenarios below. -/
def baseSettings : IconocolorSettings :=
  { folderConfigs := []
    colorPalettes := []
    activePaletteIndex := 0
    autoColorEnabled := false
    autoColorMode := AutoColorMode.repeating
    childBaseTransformation := { type := TransformationType.lightness, adjustment := Option.some 10 }
    folderColorOpacity := 100 }

/-- C1 witness scenario: `A/B` disables inheritance below it. -/
def c1Settings : IconocolorSettings :=
  { baseSettings with
    folderConfigs := [("A", { baseColor := Option.some "#112233" }),
                      ("A/B", { inheritBaseColor := Option.some false })] }

/-- C2 counterexample scenario: an override whose `baseColor` is present but `""`. -/
def c2Settings : IconocolorSettings :=
  { baseSettings with folderConfigs := [("A", { baseColor := Option.some "" })] }

/-- A vault with a single root folder `A`. -/
def vaultA : Vault := { allFolders := ["A"] }

/-- C4 §8 scenario settings: global opacity 100, child `backgroundOpacity` 50. -/
def c4Settings : IconocolorSettings :=
  { baseSettings with
    colorPalettes := [{ name := "p", colors := ["#3B82F6"] }]
    autoColorEnabled := true
    childBaseTransformation :=
      { type := TransformationType.lightness, adjustment := Option.some 10,
        useGradient := Option.some false, backgroundOpacity := Option.some 50 } }

/-- C5 failing-input scenario: a stored override with only a `baseColor`. -/
def c5Settings : IconocolorSettings :=
  { baseSettings with folderConfigs := [("A", { baseColor := Option.some "#112233" })] }

/-- C6 scenario: roots `A` (base `#000000`) and `B` (base `#FFFFFF`); `A` has the
single child `A/C`; gradient mode with an identity (lightness 0) transformation. -/
def c6Settings : IconocolorSettings :=
  { baseSettings with
    folderConfigs := [("A", { baseColor := Option.some "#000000" }),
                      ("B", { baseColor := Option.some "#FFFFFF" })]
    childBaseTransformation :=
      { type := TransformationType.lightness, adjustment := Option.some 0,
        useGradient := Option.some true } }

/-- C6 vault: roots `A`, `B` and the single child `A/C`. -/
def c6Vault : Vault := { allFolders := ["A", "B", "A/C"] }

/-- C10 witness scenario: `A`'s override carries `baseColor: ""` while root
auto-coloring from a one-color palette is enabled. -/
def c10Settings : IconocolorSettings :=
  { baseSettings with
    folderConfigs := [("A", { baseColor := Option.some "" })]
    colorPalettes := [{ name := "p", colors := ["#abcdef"] }]
    autoColorEnabled := true }

/-! ## Lemmas about path splitting and joining -/

theorem splitSlash_ne_nil (l : List Char) : splitSlash l ≠ [] := by
  induction l with
  | nil => simp [splitSlash]
  | cons c cs ih =>
    simp only [splitSlash]
    split
    · simp
    · cases h : splitSlash cs with
      | nil => exact absurd h ih
      | cons a as => simp [h]

theorem joinChars_splitSlash (l : List Char) : joinChars (splitSlash l) = l := by
  induction l with
  | nil => simp [splitSlash, joinChars]
  | cons c cs ih =>
    simp only [splitSlash]
    split
    · next hc =>
      subst hc
      cases h : splitSlash cs with
      | nil => exact absurd h (splitSlash_ne_nil cs)
      | cons a as =>
        rw [h] at ih
        simp [joinChars, ih]
    · cases h : splitSlash cs with
      | nil => exact absurd h (splitSlash_ne_nil cs)
      | cons a as =>
        rw [h] at ih
        cases as with
        | nil => simpa [joinChars] using congrArg (c :: ·) ih
        | cons b bs => simpa [joinChars] using congrArg (c :: ·) ih

theorem splitP_ne_nil (s : String) : splitP s ≠ [] := by
  simp only [splitP]
  intro h
  exact splitSlash_ne_nil s.data (List.map_eq_nil_iff.mp h)

theorem one_le_length_splitP (s : String) : 1 ≤ (splitP s).length := by
  have := splitP_ne_nil s
  cases h : splitP s with
  | nil => exact absurd h this
  | cons a as => simp

theorem joinP_splitP (s : String) : joinP (splitP s) = s := by
  simp only [joinP, splitP, List.map_map]
  rw [show String.data ∘ String.mk = id from rfl, List.map_id, joinChars_splitSlash]

theorem mem_splitSlash_no_slash (l : List Char) :
    ∀ seg ∈ splitSlash l, '/' ∉ seg := by
  induction l with
  | nil => simp [splitSlash]
  | cons c cs ih =>
    simp only [splitSlash]
    split
    · intro seg hseg
      rw [List.mem_cons] at hseg
      rcases hseg with h | h
      · subst h; simp
      · exact ih seg h
    · next hc =>
      cases h : splitSlash cs with
      | nil => exact absurd h (splitSlash_ne_nil cs)
      | cons a as =>
        rw [h] at ih
        intro seg hseg
        rw [List.mem_cons] at hseg
        rcases hseg with h2 | h2
        · subst h2
          intro hmem
          rw [List.mem_cons] at hmem
          rcases hmem with h3 | h3
          · exact hc h3.symm
          · exact ih a (List.mem_cons_self a as) h3
        · exact ih seg (List.mem_cons_of_mem a h2)

theorem splitP_mem_no_slash (s : String) : ∀ x ∈ splitP s, '/' ∉ x.data := by
  simp only [splitP]
  intro x hx
  rcases List.mem_map.mp hx with ⟨seg, hseg, rfl⟩
  exact mem_splitSlash_no_slash s.data seg hseg

theorem splitSlash_no_slash (l : List Char) (h : '/' ∉ l) : splitSlash l = [l] := by
  induction l with
  | nil => simp [splitSlash]
  | cons c cs ih =>
    rw [List.mem_cons, not_or] at h
    simp only [splitSlash]
    rw [if_neg (fun hc => h.1 hc.symm), ih h.2]

theorem splitSlash_append (x t : List Char) (h : '/' ∉ x) :
    splitSlash (x ++ '/' :: t) = x :: splitSlash t := by
  induction x with
  | nil => simp [splitSlash]
  | cons c cs ih =>
    rw [List.mem_cons, not_or] at h
    have hc : ¬ c = '/' := fun hc => h.1 hc.symm
    rw [List.cons_append]
    simp only [splitSlash, if_neg hc]
    rw [ih h.2]

theorem splitSlash_joinChars (ls : List (List Char)) (hne : ls ≠ [])
    (hns : ∀ x ∈ ls, '/' ∉ x) : splitSlash (joinChars ls) = ls := by
  induction ls with
  | nil => exact absurd rfl hne
  | cons x xs ih =>
    cases xs with
    | nil => simpa [joinChars] using splitSlash_no_slash x (hns x (List.mem_cons_self x []))
    | cons y ys =>
      rw [show joinChars (x :: y :: ys) = x ++ '/' :: joinChars (y :: ys) from rfl]
      rw [splitSlash_append x _ (hns x (List.mem_cons_self x _))]
      rw [ih (by simp) (fun z hz => hns z (List.mem_cons_of_mem x hz))]

theorem splitP_joinP (l : List String) (hne : l ≠ [])
    (hns : ∀ x ∈ l, '/' ∉ x.data) : splitP (joinP l) = l := by
  simp only [splitP, joinP]
  rw [splitSlash_joinChars (l.map String.data) (by simpa using hne)
    (by intro x hx; rcases List.mem_map.mp hx with ⟨s, hs, rfl⟩; exact hns s hs)]
  rw [List.map_map, show String.mk ∘ String.data = id from rfl, List.map_id]

/-! ## Unfolding lemmas for the fueled resolvers -/

theorem getBaseColorF_succ (s : IconocolorSettings) (v : Vault) (n : ℕ) :
    getBaseColorF s v (n + 1) = getBaseColorBody s v (getBaseColorF s v n) := rfl

theorem getBaseColor_unfold (s : IconocolorSettings) (v : Vault) (path : String) :
    getBaseColor s v path
      = getBaseColorBody s v (getBaseColorF s v ((splitP path).length - 1)) (splitP path) := by
  unfold getBaseColor
  obtain ⟨n, hn⟩ : ∃ n, (splitP path).length = n + 1 :=
    ⟨(splitP path).length - 1, by have := one_le_length_splitP path; omega⟩
  have h1 : (splitP path).length - 1 = n := by omega
  rw [h1, hn, getBaseColorF_succ]

theorem getComputedOpacityF_succ (s : IconocolorSettings) (n : ℕ) (segs : List String) :
    getComputedOpacityF s (n + 1) segs
      = if segs.length == 1 then s.folderColorOpacity
        else if anyAncestorDisabled s segs then 0
        else max 0 (min 100
          (getComputedOpacityF s n segs.dropLast * childOpacityFactor s)) := rfl

theorem getComputedOpacity_unfold (s : IconocolorSettings) (path : String) :
    getComputedOpacity s path
      = if (splitP path).length == 1 then s.folderColorOpacity
        else if anyAncestorDisabled s (splitP path) then 0
        else max 0 (min 100
          (getComputedOpacityF s ((splitP path).length - 1) (splitP path).dropLast
            * childOpacityFactor s)) := by
  unfold getComputedOpacity
  obtain ⟨n, hn⟩ : ∃ n, (splitP path).length = n + 1 :=
    ⟨(splitP path).length - 1, by have := one_le_length_splitP path; omega⟩
  have h1 : (splitP path).length - 1 = n := by omega
  rw [h1, hn, getComputedOpacityF_succ, hn]

theorem getBaseColor_joinP (s : IconocolorSettings) (v : Vault) (l : List String)
    (hne : l ≠ []) (hns : ∀ x ∈ l, '/' ∉ x.data) :
    getBaseColor s v (joinP l) = getBaseColorF s v l.length l := by
  unfold getBaseColor
  rw [splitP_joinP l hne hns]

theorem getComputedOpacity_joinP (s : IconocolorSettings) (l : List String)
    (hne : l ≠ []) (hns : ∀ x ∈ l, '/' ∉ x.data) :
    getComputedOpacity s (joinP l) = getComputedOpacityF s l.length l := by
  unfold getComputedOpacity
  rw [splitP_joinP l hne hns]

set_option maxRecDepth 40000

/-! ## Claim theorems -/

/-- C9: malformed-hex degradation.  If either input of `interpolateColor` fails to
parse, the first color is returned unchanged for every factor; and
`applyHSLTransformation` / `applyLightnessTransformation` return their input
unchanged whenever it fails to parse.  (All the embedded color-math functions are
total Lean functions, so no input raises an exception.) -/
theorem c9_malformed_hex_degradation :
    (∀ (c1 c2 : String) (factor : ℚ),
        hexToRgb c1 = Option.none ∨ hexToRgb c2 = Option.none →
        interpolateColor c1 c2 factor = c1)
    ∧ (∀ (hex : String) (t : HSLAdjust),
        hexToRgb hex = Option.none → applyHSLTransformation hex t = hex)
    ∧ (∀ (hex : String) (adjustment : ℚ),
        hexToRgb hex = Option.none → applyLightnessTransformation hex adjustment = hex) := by
  refine ⟨?_, ?_, ?_⟩
  · intro c1 c2 factor h
    unfold interpolateColor
    rcases h with h | h
    · rw [h]
    · rw [h]
      cases hexToRgb c1 <;> rfl
  · intro hex t h
    unfold applyHSLTransformation
    rw [h]
  · intro hex adjustment h
    unfold applyLightnessTransformation
    rw [h]

/-- C9 witness: the theorem applied to the unparseable string `"zz"`. -/
theorem c9_malformed_hex_degradation_witness :
    interpolateColor "zz" "#000000" (1/3) = "zz"
    ∧ applyHSLTransformation "zz" ⟨Option.some 10, Option.none, Option.none⟩ = "zz"
    ∧ applyLightnessTransformation "zz" 5 = "zz" :=
  ⟨c9_malformed_hex_degradation.1 "zz" "#000000" (1/3) (Or.inl (by decide)),
   c9_malformed_hex_degradation.2.1 "zz" ⟨Option.some 10, Option.none, Option.none⟩ (by decide),
   c9_malformed_hex_degradation.2.2 "zz" 5 (by decide)⟩

/-- C2 counterexample: an override whose `baseColor` is present but equal to `""`
is not returned by `getBaseColor` (the source's precedence check is
truthiness-based), refuting the claim for the value `""`. -/
theorem c2_counterexample :
    (lookupConfig c2Settings "A").bind (fun c => c.baseColor) = Option.some ""
    ∧ getBaseColor c2Settings vaultA "A" ≠ Option.some "" := by
  constructor
  · decide
  · decide

/-- C2 (amended): for every folder path whose override record has `baseColor` set
to a non-empty string, `getBaseColor` returns exactly that value, for every
configuration of palettes, auto-coloring, transformations, ancestor overrides and
vault contents. -/
theorem c2_override_precedence (s : IconocolorSettings) (v : Vault) (path : String)
    (cfg : FolderConfig) (col : String)
    (h1 : lookupConfig s path = Option.some cfg)
    (h2 : cfg.baseColor = Option.some col) (h3 : col ≠ "") :
    getBaseColor s v path = Option.some col := by
  rw [getBaseColor_unfold]
  simp only [getBaseColorBody, joinP_splitP, h1, Option.some_bind, h2]
  simp [truthyStr, h3]

/-- C2 witness: a non-empty explicit `baseColor` override is returned verbatim. -/
theorem c2_override_precedence_witness :
    getBaseColor c5Settings vaultA "A" = Option.some "#112233" :=
  c2_override_precedence c5Settings vaultA "A" { baseColor := Option.some "#112233" }
    "#112233" (by decide) (by decide) (by decide)

/-- C5: evaluation of the code at the failing input.  The stored override for `A`
is `{ baseColor: "#112233" }`; the config modal's merge marks `baseColor` for
deletion (`__deleteBaseColor = true`) because the result no longer sets it; yet
after `setFolderConfig` the stored record still contains `baseColor` and is not
pruned — `setFolderConfig` never consults the deletion flags. -/
theorem c5_deletion_flags_ignored :
    (openFolderConfigModalMerge { baseColor := Option.some "#112233" } {}).__deleteBaseColor
      = Option.some true
    ∧ lookupConfig (setFolderConfig c5Settings "A"
        (openFolderConfigModalMerge { baseColor := Option.some "#112233" } {})) "A"
      = Option.some { baseColor := Option.some "#112233" } := by
  constructor
  · decide
  · decide

/-- C6: gradient single-child midpoint.  With parent base `#000000`, one child,
next sibling `#FFFFFF` and an identity (lightness 0) child transformation in
gradient mode, the child's base color is `interpolateColor(#000000, #FFFFFF, 0.5)`,
which is exactly `#808080`. -/
theorem c6_gradient_single_child_midpoint :
    getBaseColor c6Settings c6Vault "A/C"
      = Option.some (interpolateColor "#000000" "#FFFFFF" (1/2))
    ∧ interpolateColor "#000000" "#FFFFFF" (1/2) = "#808080" := by
  constructor
  · decide
  · decide

/-- C7 counterexample: with the uppercase palette of the claim's example, the
endpoints are re-emitted through `interpolateColor`, which prints lowercase hex,
so the claimed list equality fails (at index 0, `"#ff0000" ≠ "#FF0000"`). -/
theorem c7_counterexample :
    generateGradientColors ["#FF0000", "#00FF00"] 3
      ≠ ["#FF0000", interpolateColor "#FF0000" "#00FF00" (1/2), "#00FF00"] := by
  decide

/-- C7 (amended): `generateGradientColors` returns the first `count` palette
colors unchanged for `count ≤ palette.length`; repeats a single-color palette
`count` times; for `count > palette.length ≥ 2` emits, at each position `i`, the
in-segment interpolation `gradientColorAt` over the `palette.length − 1` equal
segments; and the claim's concrete example holds up to hex-digit case (exactly,
once the palette is written in the lowercase form `interpolateColor` prints). -/
theorem c7_generate_gradient_colors :
    (∀ (c : String) (count : ℕ), generateGradientColors [c] count = List.replicate count c)
    ∧ (∀ (palette : List String) (count : ℕ), count ≤ palette.length →
        generateGradientColors palette count = palette.take count)
    ∧ (∀ (palette : List String) (count : ℕ), palette.length < count → 2 ≤ palette.length →
        generateGradientColors palette count
          = (List.range count).map (gradientColorAt palette count))
    ∧ generateGradientColors ["#ff0000", "#00ff00"] 3
        = ["#ff0000", interpolateColor "#ff0000" "#00ff00" (1/2), "#00ff00"] := by
  refine ⟨?_, ?_, ?_, by decide⟩
  · intro c count
    rfl
  · intro palette count h
    match palette with
    | [] =>
      have : count = 0 := by simpa using h
      subst this
      rfl
    | [c] =>
      match count, h with
      | 0, _ => rfl
      | 1, _ => rfl
    | a :: b :: rest =>
      unfold generateGradientColors
      rw [if_pos h]
  · intro palette count h1 h2
    match palette with
    | a :: b :: rest =>
      unfold generateGradientColors
      rw [if_neg (by omega)]

/-- C7 witness: the take-prefix part of the theorem applied at a concrete input. -/
theorem c7_generate_gradient_colors_witness :
    generateGradientColors ["#aa0000", "#bb0000"] 1 = ["#aa0000"] := by
  have h := c7_generate_gradient_colors.2.1 ["#aa0000", "#bb0000"] 1 (by decide)
  simpa using h

/-- C1: inheritance blocking.  For every path with at least two segments, if some
strict ancestor (immediate parent up to the root) has an override with
`inheritBaseColor` set to `false` and the path itself has no explicit `baseColor`
override, then `getBaseColor` is `undefined` and `getComputedOpacity` is `0`,
for every vault and all other settings. -/
theorem c1_inheritance_blocking (s : IconocolorSettings) (v : Vault) (path : String)
    (hlen : 2 ≤ (splitP path).length)
    (hanc : ∃ (i : ℕ) (cfg : FolderConfig), 1 ≤ i ∧ i < (splitP path).length ∧
        lookupConfig s (joinP ((splitP path).take i)) = Option.some cfg ∧
        cfg.inheritBaseColor = Option.some false)
    (hown : (lookupConfig s path).bind (fun c => c.baseColor) = Option.none) :
    getBaseColor s v path = Option.none ∧ getComputedOpacity s path = 0 := by
  have hblocked : anyAncestorDisabled s (splitP path) = true := by
    obtain ⟨i, cfg, h1, h2, h3, h4⟩ := hanc
    unfold anyAncestorDisabled
    rw [List.any_eq_true]
    refine ⟨i, ?_, ?_⟩
    · rw [List.mem_range'_1]
      omega
    · unfold inheritDisabledAt
      rw [h3]
      simp [h4]
  have hroot : ((splitP path).length == 1) = false := by
    rw [beq_eq_false_iff_ne]
    omega
  constructor
  · rw [getBaseColor_unfold]
    simp only [getBaseColorBody, joinP_splitP, hown, truthyStr, hroot, hblocked]
    simp
  · rw [getComputedOpacity_unfold, hroot, hblocked]
    simp

/-- C1 witness: `A/B` disables inheritance, so `A/B/C` resolves to no base color
and zero opacity even though `A` has one. -/
theorem c1_inheritance_blocking_witness :
    getBaseColor c1Settings vaultA "A/B/C" = Option.none
    ∧ getComputedOpacity c1Settings "A/B/C" = 0 :=
  c1_inheritance_blocking c1Settings vaultA "A/B/C" (by decide)
    ⟨2, { inheritBaseColor := Option.some false }, by decide, by decide, by decide, by decide⟩
    (by decide)

/-- C3: a `'none'` child-base transformation suppresses inheritance.  For every
non-root path with no explicit `baseColor` override, if the global child-base
transformation type is `'none'`, `getBaseColor` is `undefined` — whatever the
ancestors' overrides and the parent's resolvable color. -/
theorem c3_none_transformation_blocks_inheritance (s : IconocolorSettings) (v : Vault)
    (path : String)
    (hlen : 2 ≤ (splitP path).length)
    (hown : (lookupConfig s path).bind (fun c => c.baseColor) = Option.none)
    (htype : s.childBaseTransformation.type = TransformationType.none) :
    getBaseColor s v path = Option.none := by
  have hroot : ((splitP path).length == 1) = false := by
    rw [beq_eq_false_iff_ne]
    omega
  have hcbt : ∀ rec pc cs ps, applyChildBaseTransformationG s v rec pc cs ps = "" := by
    intro rec pc cs ps
    simp [applyChildBaseTransformationG, htype]
  rw [getBaseColor_unfold]
  simp only [getBaseColorBody, joinP_splitP, hown, truthyStr, hroot]
  by_cases hb : anyAncestorDisabled s (splitP path)
  · simp [hb]
  · simp only [hb, Bool.false_eq_true, if_false]
    split
    · simp [hcbt, htype]
    · simp

/-- C3 witness: with a `'none'` child transformation, `A/B` gets no base color
even though nothing blocks inheritance. -/
theorem c3_none_transformation_blocks_inheritance_witness :
    getBaseColor
      { baseSettings with childBaseTransformation := { type := TransformationType.none } }
      vaultA "A/B" = Option.none :=
  c3_none_transformation_blocks_inheritance
    { baseSettings with childBaseTransformation := { type := TransformationType.none } }
    vaultA "A/B" (by decide) (by decide) rfl

/-- C4: the opacity recurrence.  A root path returns the global
`folderColorOpacity` unchanged; a non-root path with no inheritance-disabling
strict ancestor returns the parent's computed opacity times
`(backgroundOpacity ?? 100) / 100`, clamped to `[0, 100]`; and in the §8 scenario
(global opacity 100, `backgroundOpacity` 50) `Projects` computes to 100 and
`Projects/Sub` to 50. -/
theorem c4_opacity_recurrence :
    (∀ (s : IconocolorSettings) (path : String), (splitP path).length = 1 →
        getComputedOpacity s path = s.folderColorOpacity)
    ∧ (∀ (s : IconocolorSettings) (path : String), 2 ≤ (splitP path).length →
        (∀ (i : ℕ) (cfg : FolderConfig), 1 ≤ i → i < (splitP path).length →
            lookupConfig s (joinP ((splitP path).take i)) = Option.some cfg →
            cfg.inheritBaseColor ≠ Option.some false) →
        getComputedOpacity s path
          = max 0 (min 100 (getComputedOpacity s (joinP (splitP path).dropLast)
              * (s.childBaseTransformation.backgroundOpacity.getD 100 / 100))))
    ∧ getComputedOpacity c4Settings "Projects" = 100
    ∧ getComputedOpacity c4Settings "Projects/Sub" = 50 := by
  refine ⟨?_, ?_, by decide, by decide⟩
  · intro s path hlen
    rw [getComputedOpacity_unfold]
    simp [hlen]
  · intro s path hlen hnone
    have hroot : ((splitP path).length == 1) = false := by
      rw [beq_eq_false_iff_ne]
      omega
    have hnb : anyAncestorDisabled s (splitP path) = false := by
      unfold anyAncestorDisabled
      rw [List.any_eq_false]
      intro i hi
      rw [List.mem_range'_1] at hi
      unfold inheritDisabledAt
      cases h : lookupConfig s (joinP ((splitP path).take i)) with
      | none => simp
      | some cfg =>
        have := hnone i cfg (by omega) (by omega) h
        simp [this]
    have hfac : childOpacityFactor s
        = s.childBaseTransformation.backgroundOpacity.getD 100 / 100 := by
      unfold childOpacityFactor
      cases s.childBaseTransformation.backgroundOpacity with
      | none => norm_num
      | some bo => rfl
    have hpar : getComputedOpacity s (joinP (splitP path).dropLast)
        = getComputedOpacityF s ((splitP path).length - 1) (splitP path).dropLast := by
      rw [getComputedOpacity_joinP s (splitP path).dropLast
        (by
          intro h
          have := congrArg List.length h
          simp [List.length_dropLast] at this
          omega)
        (fun x hx => splitP_mem_no_slash path x (List.dropLast_subset _ hx))]
      rw [List.length_dropLast]
    rw [getComputedOpacity_unfold, hroot, hnb, hpar, hfac]
    simp

/-- C4 witness: the root equation and the recurrence applied in the §8 scenario. -/
theorem c4_opacity_recurrence_witness :
    getComputedOpacity c4Settings "Projects" = c4Settings.folderColorOpacity
    ∧ getComputedOpacity c4Settings "Projects/Sub"
        = max 0 (min 100 (getComputedOpacity c4Settings (joinP (splitP "Projects/Sub").dropLast)
            * (c4Settings.childBaseTransformation.backgroundOpacity.getD 100 / 100))) :=
  ⟨c4_opacity_recurrence.1 c4Settings "Projects" (by decide),
   c4_opacity_recurrence.2.1 c4Settings "Projects/Sub" (by decide)
     (by
       intro i cfg h1 h2 h3
       have hi : i = 1 := by
         have : (splitP "Projects/Sub").length = 2 := by decide
         omega
       subst hi
       rw [show lookupConfig c4Settings (joinP ((splitP "Projects/Sub").take 1)) = Option.none
         from by decide] at h3
       exact absurd h3 (by simp))⟩

/-! ## Congruence of the resolver in the override map (for C10) -/

theorem lookup_eraseConfig_ne (m : List (String × FolderConfig)) (k P : String)
    (h : k ≠ P) : List.lookup k (eraseConfig m P) = List.lookup k m := by
  have hkP : (k == P) = false := by rwa [beq_eq_false_iff_ne]
  unfold eraseConfig
  induction m with
  | nil => rfl
  | cons e rest ih =>
    rw [List.filter_cons]
    by_cases he : e.1 = P
    · have hk : (k == e.1) = false := by
        rw [beq_eq_false_iff_ne, he]
        exact h
      simp [he, List.lookup, hk, hkP, ih]
    · have hne : (e.1 == P) = false := by rwa [beq_eq_false_iff_ne]
      by_cases hk : k = e.1
      · simp [hne, List.lookup, hk]
      · have h2 : (k == e.1) = false := by rwa [beq_eq_false_iff_ne]
        simp [hne, List.lookup, h2, ih]

theorem lookup_storeConfig_self (m : List (String × FolderConfig)) (P : String)
    (c : FolderConfig) : List.lookup P (storeConfig m P c) = Option.some c := by
  unfold storeConfig
  simp [List.lookup]

theorem lookup_storeConfig_ne (m : List (String × FolderConfig)) (k P : String)
    (c : FolderConfig) (h : k ≠ P) :
    List.lookup k (storeConfig m P c) = List.lookup k m := by
  have h2 : (k == P) = false := by rwa [beq_eq_false_iff_ne]
  unfold storeConfig
  rw [show List.lookup k ((P, c) :: eraseConfig m P)
      = List.lookup k (eraseConfig m P) from by simp [List.lookup, h2]]
  exact lookup_eraseConfig_ne m k P h

theorem applyGradientTransformationG_congr (v : Vault)
    (g1 g2 : List String → Option String) (hg : ∀ x, g1 x = g2 x)
    (pc : String) (cs ps : List String) :
    applyGradientTransformationG v g1 pc cs ps = applyGradientTransformationG v g2 pc cs ps := by
  unfold applyGradientTransformationG
  simp only [hg]

theorem applyChildBaseTransformationG_congr (s1 s2 : IconocolorSettings) (v : Vault)
    (g1 g2 : List String → Option String) (hg : ∀ x, g1 x = g2 x)
    (hcbt : s1.childBaseTransformation = s2.childBaseTransformation)
    (pc : String) (cs ps : List String) :
    applyChildBaseTransformationG s1 v g1 pc cs ps
      = applyChildBaseTransformationG s2 v g2 pc cs ps := by
  unfold applyChildBaseTransformationG
  rw [hcbt, applyGradientTransformationG_congr v g1 g2 hg]

theorem getBaseColorF_congr (s1 s2 : IconocolorSettings) (v : Vault)
    (hpal : s1.colorPalettes = s2.colorPalettes)
    (hidx : s1.activePaletteIndex = s2.activePaletteIndex)
    (hauto : s1.autoColorEnabled = s2.autoColorEnabled)
    (hmode : s1.autoColorMode = s2.autoColorMode)
    (hcbt : s1.childBaseTransformation = s2.childBaseTransformation)
    (hbase : ∀ k, baseColorRead (lookupConfig s1 k) = baseColorRead (lookupConfig s2 k))
    (hinh : ∀ k, inheritDisabledAt s1 k = inheritDisabledAt s2 k) :
    ∀ (fuel : ℕ) (segs : List String),
      getBaseColorF s1 v fuel segs = getBaseColorF s2 v fuel segs := by
  have hgen : ∀ roots, generateAutoColors s1 roots = generateAutoColors s2 roots := by
    intro roots
    unfold generateAutoColors
    rw [hpal, hidx, hmode]
  have hanyd : ∀ sg, anyAncestorDisabled s1 sg = anyAncestorDisabled s2 sg := by
    intro sg
    unfold anyAncestorDisabled
    simp only [hinh]
  intro fuel
  induction fuel with
  | zero => intro segs; rfl
  | succ n ih =>
    intro segs
    rw [getBaseColorF_succ, getBaseColorF_succ]
    unfold getBaseColorBody
    have hb := hbase (joinP segs)
    simp only [baseColorRead] at hb
    by_cases ht1 : truthyStr ((lookupConfig s1 (joinP segs)).bind fun c => c.baseColor)
    · rw [if_pos ht1] at hb
      by_cases ht2 : truthyStr ((lookupConfig s2 (joinP segs)).bind fun c => c.baseColor)
      · rw [if_pos ht2] at hb
        simp only [ht1, ht2, if_true]
        exact hb
      · rw [if_neg ht2] at hb
        rw [hb] at ht1
        simp [truthyStr] at ht1
    · by_cases ht2 : truthyStr ((lookupConfig s2 (joinP segs)).bind fun c => c.baseColor)
      · rw [if_neg ht1, if_pos ht2] at hb
        rw [← hb] at ht2
        simp [truthyStr] at ht2
      · simp only [ht1, ht2, Bool.false_eq_true, if_false]
        simp only [hauto, hgen, hanyd, ih,
          applyChildBaseTransformationG_congr s1 s2 v _ _ ih hcbt, hcbt]

/-- C10: an override whose `baseColor` is present but equal to `""` behaves
exactly as if no `baseColor` override existed.  (1) Replacing such a record's
`baseColor` by "absent" changes no `getBaseColor` result — resolution falls
through to root auto-coloring or parent inheritance, because the precedence check
is truthiness-based.  (2) A parent whose resolved base color is the empty string
is treated as having no resolvable base color: the child (with no explicit
`baseColor` of its own) resolves to `undefined`. -/
theorem c10_empty_base_color_is_absent :
    (∀ (s : IconocolorSettings) (v : Vault) (P : String) (cfg : FolderConfig),
        lookupConfig s P = Option.some cfg → cfg.baseColor = Option.some "" →
        ∀ q, getBaseColor s v q
          = getBaseColor { s with folderConfigs := storeConfig s.folderConfigs P ({ cfg with baseColor := Option.none }) } v q)
    ∧ (∀ (s : IconocolorSettings) (v : Vault) (path : String),
        2 ≤ (splitP path).length →
        (lookupConfig s path).bind (fun c => c.baseColor) = Option.none →
        getBaseColor s v (joinP (splitP path).dropLast) = Option.some "" →
        getBaseColor s v path = Option.none) := by
  constructor
  · intro s v P cfg h1 h2 q
    unfold getBaseColor
    apply getBaseColorF_congr s
      { s with folderConfigs := storeConfig s.folderConfigs P ({ cfg with baseColor := Option.none }) }
      v rfl rfl rfl rfl rfl
    · intro k
      by_cases hk : k = P
      · subst hk
        unfold lookupConfig at h1 ⊢
        rw [h1]
        rw [show ({ s with folderConfigs := storeConfig s.folderConfigs k ({ cfg with baseColor := Option.none }) } : IconocolorSettings).folderConfigs
          = storeConfig s.folderConfigs k ({ cfg with baseColor := Option.none }) from rfl]
        rw [lookup_storeConfig_self]
        simp [baseColorRead, h2, truthyStr]
      · unfold lookupConfig
        rw [show ({ s with folderConfigs := storeConfig s.folderConfigs P ({ cfg with baseColor := Option.none }) } : IconocolorSettings).folderConfigs
          = storeConfig s.folderConfigs P ({ cfg with baseColor := Option.none }) from rfl]
        rw [lookup_storeConfig_ne _ _ _ _ hk]
    · intro k
      by_cases hk : k = P
      · subst hk
        unfold inheritDisabledAt
        unfold lookupConfig at h1 ⊢
        rw [h1]
        rw [show ({ s with folderConfigs := storeConfig s.folderConfigs k ({ cfg with baseColor := Option.none }) } : IconocolorSettings).folderConfigs
          = storeConfig s.folderConfigs k ({ cfg with baseColor := Option.none }) from rfl]
        rw [lookup_storeConfig_self]
      · unfold inheritDisabledAt lookupConfig
        rw [show ({ s with folderConfigs := storeConfig s.folderConfigs P ({ cfg with baseColor := Option.none }) } : IconocolorSettings).folderConfigs
          = storeConfig s.folderConfigs P ({ cfg with baseColor := Option.none }) from rfl]
        rw [lookup_storeConfig_ne _ _ _ _ hk]
  · intro s v path hlen hown hpar
    have hroot : ((splitP path).length == 1) = false := by
      rw [beq_eq_false_iff_ne]
      omega
    have hdl_ne : (splitP path).dropLast ≠ [] := by
      intro h
      have := congrArg List.length h
      simp [List.length_dropLast] at this
      omega
    have hpar2 : getBaseColorF s v ((splitP path).length - 1) (splitP path).dropLast
        = Option.some "" := by
      rw [← List.length_dropLast (splitP path)]
      rw [← getBaseColor_joinP s v (splitP path).dropLast hdl_ne
        (fun x hx => splitP_mem_no_slash path x (List.dropLast_subset _ hx))]
      exact hpar
    rw [getBaseColor_unfold]
    simp only [getBaseColorBody, joinP_splitP, hown, truthyStr, hroot]
    by_cases hb : anyAncestorDisabled s (splitP path)
    · simp [hb]
    · simp [hb, hpar2, truthyStr]

/-- C10 witness: with `A`'s override set to `baseColor: ""`, resolution gives the
same result as with the `baseColor` field removed, and falls through to the
palette auto-color; and a parent resolving to `""` gives its child no base color. -/
theorem c10_empty_base_color_is_absent_witness :
    (getBaseColor c10Settings vaultA "A"
      = getBaseColor { c10Settings with folderConfigs := storeConfig c10Settings.folderConfigs "A" ({ baseColor := Option.none }) } vaultA "A")
    ∧ getBaseColor c10Settings vaultA "A" = Option.some "#abcdef"
    ∧ getBaseColor
        { baseSettings with
          folderConfigs := [("A", { baseColor := Option.some "" })]
          colorPalettes := [{ name := "p", colors := [""] }]
          autoColorEnabled := true } vaultA "A/B" = Option.none :=
  ⟨c10_empty_base_color_is_absent.1 c10Settings vaultA "A"
      ({ baseColor := Option.some "" }) (by decide) (by decide) "A",
   by decide,
   c10_empty_base_color_is_absent.2
      { baseSettings with
        folderConfigs := [("A", { baseColor := Option.some "" })]
        colorPalettes := [{ name := "p", colors := [""] }]
        autoColorEnabled := true } vaultA "A/B" (by decide) (by decide) (by decide)⟩

/-! ## Exactness of the HSL round trip (for C8) -/

theorem jsRound_intCast (n : ℤ) : jsRound (n : ℚ) = n := by
  unfold jsRound
  rw [Int.floor_eq_iff]
  constructor
  · linarith
  · linarith

theorem jsRound_natCast (n : ℕ) : jsRound (n : ℚ) = (n : ℤ) := by
  have h := jsRound_intCast (n : ℤ)
  push_cast at h
  exact h

theorem hue2rgb_up (p q t : ℚ) (h0 : 0 ≤ t) (h1 : t ≤ 1/6) :
    hue2rgb p q t = p + (q - p) * 6 * t := by
  simp only [hue2rgb]
  rw [if_neg (not_lt.2 h0), if_neg (by simp only [not_lt]; linarith : ¬ t > 1)]
  rcases lt_or_eq_of_le h1 with h | h
  · rw [if_pos h]
  · subst h
    rw [if_neg (by norm_num), if_pos (by norm_num)]
    ring

theorem hue2rgb_q (p q t : ℚ) (h0 : 1/6 ≤ t) (h1 : t ≤ 1/2) :
    hue2rgb p q t = q := by
  simp only [hue2rgb]
  rw [if_neg (by simp only [not_lt]; linarith : ¬ t < 0),
    if_neg (by simp only [not_lt]; linarith : ¬ t > 1),
    if_neg (not_lt.2 h0)]
  rcases lt_or_eq_of_le h1 with h | h
  · rw [if_pos h]
  · subst h
    rw [if_neg (by norm_num), if_pos (by norm_num)]
    ring

theorem hue2rgb_down (p q t : ℚ) (h0 : 1/2 ≤ t) (h1 : t ≤ 2/3) :
    hue2rgb p q t = p + (q - p) * (2/3 - t) * 6 := by
  simp only [hue2rgb]
  rw [if_neg (by simp only [not_lt]; linarith : ¬ t < 0),
    if_neg (by simp only [not_lt]; linarith : ¬ t > 1),
    if_neg (by simp only [not_lt]; linarith : ¬ t < 1/6),
    if_neg (not_lt.2 h0)]
  rcases lt_or_eq_of_le h1 with h | h
  · rw [if_pos h]
  · subst h
    rw [if_neg (by norm_num)]
    ring

theorem hue2rgb_p (p q t : ℚ) (h0 : 2/3 ≤ t) (h1 : t ≤ 1) :
    hue2rgb p q t = p := by
  simp only [hue2rgb]
  rw [if_neg (by simp only [not_lt]; linarith : ¬ t < 0),
    if_neg (by simp only [not_lt]; linarith : ¬ t > 1),
    if_neg (by simp only [not_lt]; linarith : ¬ t < 1/6),
    if_neg (by simp only [not_lt]; linarith : ¬ t < 1/2),
    if_neg (not_lt.2 h0)]

theorem hue2rgb_wrapneg (p q t : ℚ) (h0 : -1 ≤ t) (h1 : t < 0) :
    hue2rgb p q t = hue2rgb p q (t + 1) := by
  simp only [hue2rgb]
  rw [if_pos h1, if_neg (by simp only [not_lt]; linarith : ¬ t + 1 < 0)]

theorem hue2rgb_wrappos (p q t : ℚ) (h0 : 1 < t) (h1 : t ≤ 2) :
    hue2rgb p q t = hue2rgb p q (t - 1) := by
  simp only [hue2rgb]
  rw [if_neg (by simp only [not_lt]; linarith : ¬ t < 0), if_pos (by linarith : t > 1),
    if_neg (by simp only [not_lt]; linarith : ¬ t - 1 < 0),
    if_neg (by simp only [not_lt]; linarith : ¬ t - 1 > 1)]

theorem q_eval (mx mn l sv : ℚ) (hlt : mn < mx) (h0 : 0 ≤ mn) (h1 : mx ≤ 1)
    (hl : l = (mx + mn) / 2)
    (hs : sv = if l > 1/2 then (mx - mn) / (2 - mx - mn) else (mx - mn) / (mx + mn)) :
    (if l < 1/2 then l * (1 + sv) else l + sv - l * sv) = mx := by
  have hmxpos : 0 < mx := lt_of_le_of_lt h0 hlt
  have hsum : 0 < mx + mn := by linarith
  rcases lt_trichotomy l (1/2) with hc | hc | hc
  · rw [if_pos hc, hs, if_neg (by simp only [not_lt]; linarith : ¬ l > 1/2), hl]
    field_simp
    ring
  · rw [if_neg (not_lt.2 (le_of_eq hc.symm)), hs,
      if_neg (by simp only [not_lt]; linarith : ¬ l > 1/2)]
    have hsum1 : mx + mn = 1 := by
      rw [hc] at hl
      linarith
    rw [hl, hsum1]
    norm_num
    linarith
  · rw [if_neg (not_lt.2 (le_of_lt hc)), hs, if_pos hc]
    have h2mm : 0 < 2 - mx - mn := by
      have hmn1 : mn < 1 := lt_of_lt_of_le hlt h1
      linarith
    rw [hl]
    field_simp
    ring

theorem s_pos_eval (mx mn l sv : ℚ) (hlt : mn < mx) (h0 : 0 ≤ mn) (h1 : mx ≤ 1)
    (hl : l = (mx + mn) / 2)
    (hs : sv = if l > 1/2 then (mx - mn) / (2 - mx - mn) else (mx - mn) / (mx + mn)) :
    0 < sv := by
  have hmxpos : 0 < mx := lt_of_le_of_lt h0 hlt
  have hmn1 : mn < 1 := lt_of_lt_of_le hlt h1
  rw [hs]
  split
  · exact div_pos (by linarith) (by linarith)
  · exact div_pos (by linarith) (by linarith)

theorem hue_eval_max_r (R G B mn d h : ℚ)
    (hGR : G ≤ R) (hBR : B ≤ R) (h0G : 0 ≤ G) (h0B : 0 ≤ B)
    (hmn : mn = min G B) (hd : d = R - mn) (hlt : mn < R)
    (hh : h = ((G - B) / d + if G < B then (6:ℚ) else 0) / 6) :
    hue2rgb mn R (h + 1/3) = R ∧ hue2rgb mn R h = G ∧ hue2rgb mn R (h - 1/3) = B := by
  have hdpos : 0 < d := by rw [hd]; linarith
  rcases le_or_lt B G with hBG | hGB
  · have hmnB : mn = B := by rw [hmn, min_eq_right hBG]
    rw [if_neg (not_lt.2 hBG)] at hh
    have hu0 : 0 ≤ (G - B) / d := div_nonneg (by linarith) (le_of_lt hdpos)
    have hu1 : (G - B) / d ≤ 1 := by
      rw [div_le_one hdpos, hd, hmnB]
      linarith
    have hh0 : 0 ≤ h := by rw [hh]; linarith
    have hh16 : h ≤ 1/6 := by rw [hh]; linarith
    refine ⟨?_, ?_, ?_⟩
    · rw [hue2rgb_q _ _ _ (by linarith) (by linarith)]
    · rw [hue2rgb_up _ _ _ hh0 hh16, hh, hmnB]
      have hdRB : R - B = d := by rw [hd, hmnB]
      rw [hdRB]
      field_simp
    · rw [hue2rgb_wrapneg _ _ _ (by linarith) (by linarith),
        hue2rgb_p _ _ _ (by linarith) (by linarith), hmnB]
  · have hmnG : mn = G := by rw [hmn, min_eq_left (le_of_lt hGB)]
    rw [if_pos hGB] at hh
    have hu0 : 0 < (B - G) / d := div_pos (by linarith) hdpos
    have hu1 : (B - G) / d ≤ 1 := by
      rw [div_le_one hdpos, hd, hmnG]
      linarith
    have hBG2 : (G - B) / d = -((B - G) / d) := by ring
    have hh1 : h = 1 - ((B - G) / d) / 6 := by rw [hh, hBG2]; ring
    have hhlo : 5/6 ≤ h := by rw [hh1]; linarith
    have hhhi : h < 1 := by rw [hh1]; linarith
    refine ⟨?_, ?_, ?_⟩
    · rw [hue2rgb_wrappos _ _ _ (by linarith) (by linarith),
        hue2rgb_q _ _ _ (by linarith) (by linarith)]
    · rw [hue2rgb_p _ _ _ (by linarith) (by linarith), hmnG]
    · rw [hue2rgb_down _ _ _ (by linarith) (by linarith), hmnG]
      have hdRG : R - G = d := by rw [hd, hmnG]
      rw [hdRG, hh1]
      field_simp
      ring

theorem hue_eval_max_g (R G B mn d h : ℚ)
    (hRG : R < G) (hBG : B ≤ G) (h0R : 0 ≤ R) (h0B : 0 ≤ B)
    (hmn : mn = min R B) (hd : d = G - mn) (hlt : mn < G)
    (hh : h = ((B - R) / d + 2) / 6) :
    hue2rgb mn G (h + 1/3) = R ∧ hue2rgb mn G h = G ∧ hue2rgb mn G (h - 1/3) = B := by
  have hdpos : 0 < d := by rw [hd]; linarith
  have hmnR : mn ≤ R := by rw [hmn]; exact min_le_left R B
  have hmnB : mn ≤ B := by rw [hmn]; exact min_le_right R B
  have hu1 : (B - R) / d ≤ 1 := by
    rw [div_le_one hdpos, hd]
    linarith
  rcases le_or_lt R B with hRB | hBR
  · have hmnR2 : mn = R := by rw [hmn, min_eq_left hRB]
    have hu0 : 0 ≤ (B - R) / d := div_nonneg (by linarith) (le_of_lt hdpos)
    have hhlo : 1/3 ≤ h := by rw [hh]; linarith
    have hhhi : h ≤ 1/2 := by rw [hh]; linarith
    refine ⟨?_, ?_, ?_⟩
    · rw [hue2rgb_p _ _ _ (by linarith) (by linarith), hmnR2]
    · rw [hue2rgb_q _ _ _ (by linarith) (by linarith)]
    · rw [hue2rgb_up _ _ _ (by rw [hh]; linarith) (by rw [hh]; linarith), hmnR2, hh]
      have hdGR : G - R = d := by rw [hd, hmnR2]
      rw [hdGR]
      field_simp
      ring
  · have hmnB2 : mn = B := by rw [hmn, min_eq_right (le_of_lt hBR)]
    have hult : -1 < (B - R) / d := by
      rw [lt_div_iff₀ hdpos, hd, hmnB2]
      linarith
    have hu0 : (B - R) / d < 0 := div_neg_of_neg_of_pos (by linarith) hdpos
    have hhlo : 1/6 < h := by rw [hh]; linarith
    have hhhi : h < 1/3 := by rw [hh]; linarith
    refine ⟨?_, ?_, ?_⟩
    · rw [hue2rgb_down _ _ _ (by linarith) (by linarith), hmnB2, hh]
      have hdGB : G - B = d := by rw [hd, hmnB2]
      rw [hdGB]
      field_simp
      ring
    · rw [hue2rgb_q _ _ _ (by linarith) (by linarith)]
    · rw [hue2rgb_wrapneg _ _ _ (by linarith) (by linarith),
        hue2rgb_p _ _ _ (by linarith) (by linarith), hmnB2]

theorem hue_eval_max_b (R G B mn d h : ℚ)
    (hRB : R < B) (hGB : G < B) (h0R : 0 ≤ R) (h0G : 0 ≤ G)
    (hmn : mn = min R G) (hd : d = B - mn) (hlt : mn < B)
    (hh : h = ((R - G) / d + 4) / 6) :
    hue2rgb mn B (h + 1/3) = R ∧ hue2rgb mn B h = G ∧ hue2rgb mn B (h - 1/3) = B := by
  have hdpos : 0 < d := by rw [hd]; linarith
  have hmnR : mn ≤ R := by rw [hmn]; exact min_le_left R G
  have hmnG : mn ≤ G := by rw [hmn]; exact min_le_right R G
  have hu1 : (R - G) / d < 1 := by
    rw [div_lt_one hdpos, hd]
    linarith
  have hult : -1 < (R - G) / d := by
    rw [lt_div_iff₀ hdpos, hd]
    linarith
  rcases le_or_lt R G with hRG | hGR
  · have hmnR2 : mn = R := by rw [hmn, min_eq_left hRG]
    have hu0 : (R - G) / d ≤ 0 :=
      div_nonpos_of_nonpos_of_nonneg (by linarith) (le_of_lt hdpos)
    have hhlo : 1/2 < h := by rw [hh]; linarith
    have hhhi : h ≤ 2/3 := by rw [hh]; linarith
    refine ⟨?_, ?_, ?_⟩
    · rw [hue2rgb_p _ _ _ (by linarith) (by linarith), hmnR2]
    · rw [hue2rgb_down _ _ _ (by linarith) (by linarith), hmnR2, hh]
      have hdBR : B - R = d := by rw [hd, hmnR2]
      rw [hdBR]
      field_simp
      ring
    · rw [hue2rgb_q _ _ _ (by linarith) (by linarith)]
  · have hmnG2 : mn = G := by rw [hmn, min_eq_right (le_of_lt hGR)]
    have hu0 : 0 < (R - G) / d := div_pos (by linarith) hdpos
    have hhlo : 2/3 < h := by rw [hh]; linarith
    have hhhi : h < 5/6 := by rw [hh]; linarith
    refine ⟨?_, ?_, ?_⟩
    · rw [hue2rgb_wrappos _ _ _ (by linarith) (by linarith),
        hue2rgb_up _ _ _ (by rw [hh]; linarith) (by rw [hh]; linarith), hmnG2, hh]
      have hdBG : B - G = d := by rw [hd, hmnG2]
      rw [hdBG]
      field_simp
      ring
    · rw [hue2rgb_p _ _ _ (by linarith) (by linarith), hmnG2]
    · rw [hue2rgb_q _ _ _ (by linarith) (by linarith)]

theorem hslToRgb_rgbToHsl (r g b : ℕ) (hr : r ≤ 255) (hg : g ≤ 255) (hb : b ≤ 255) :
    hslToRgb (rgbToHsl (r:ℚ) (g:ℚ) (b:ℚ)).h (rgbToHsl (r:ℚ) (g:ℚ) (b:ℚ)).s
      (rgbToHsl (r:ℚ) (g:ℚ) (b:ℚ)).l = ⟨(r:ℤ), (g:ℤ), (b:ℤ)⟩ := by
  simp only [rgbToHsl]
  set R : ℚ := (r:ℚ)/255 with hR
  set G : ℚ := (g:ℚ)/255 with hG
  set B : ℚ := (b:ℚ)/255 with hB
  have h0R : 0 ≤ R := by rw [hR]; positivity
  have h0G : 0 ≤ G := by rw [hG]; positivity
  have h0B : 0 ≤ B := by rw [hB]; positivity
  have h1R : R ≤ 1 := by
    rw [hR, div_le_one (by norm_num : (0:ℚ) < 255)]
    exact_mod_cast hr
  have h1G : G ≤ 1 := by
    rw [hG, div_le_one (by norm_num : (0:ℚ) < 255)]
    exact_mod_cast hg
  have h1B : B ≤ 1 := by
    rw [hB, div_le_one (by norm_num : (0:ℚ) < 255)]
    exact_mod_cast hb
  have hR255 : R * 255 = (r:ℚ) := by rw [hR]; field_simp
  have hG255 : G * 255 = (g:ℚ) := by rw [hG]; field_simp
  have hB255 : B * 255 = (b:ℚ) := by rw [hB]; field_simp
  set mx : ℚ := max R (max G B) with hmx
  set mn : ℚ := min R (min G B) with hmn
  have hRmx : R ≤ mx := le_max_left _ _
  have hGmx : G ≤ mx := le_trans (le_max_left G B) (le_max_right R _)
  have hBmx : B ≤ mx := le_trans (le_max_right G B) (le_max_right R _)
  have hmnR : mn ≤ R := min_le_left _ _
  have hmnG : mn ≤ G := le_trans (min_le_right R _) (min_le_left G B)
  have hmnB : mn ≤ B := le_trans (min_le_right R _) (min_le_right G B)
  have h0mn : 0 ≤ mn := le_min h0R (le_min h0G h0B)
  have h1mx : mx ≤ 1 := max_le h1R (max_le h1G h1B)
  by_cases hcase : mx = mn
  · rw [if_pos hcase]
    dsimp only
    simp only [hslToRgb]
    rw [if_pos (by norm_num : (0:ℚ)/100 = 0)]
    have hRv : R = mx := le_antisymm hRmx (hcase ▸ hmnR)
    have hGv : G = mx := le_antisymm hGmx (hcase ▸ hmnG)
    have hBv : B = mx := le_antisymm hBmx (hcase ▸ hmnB)
    have hlv : (mx + mn) / 2 * 100 / 100 * 255 = (r:ℚ) := by
      rw [← hR255, hRv, hcase]
      ring
    rw [hlv, jsRound_natCast]
    have hgr : g = r := by
      have h2 : (g:ℚ) = (r:ℚ) := by rw [← hR255, ← hG255, hRv, hGv]
      exact_mod_cast h2
    have hbr : b = r := by
      have h2 : (b:ℚ) = (r:ℚ) := by rw [← hR255, ← hB255, hRv, hBv]
      exact_mod_cast h2
    rw [hgr, hbr]
  · rw [if_neg hcase]
    dsimp only
    have hmnle : mn ≤ mx := le_trans hmnR hRmx
    have hmnlt : mn < mx := lt_of_le_of_ne hmnle (fun h => hcase h.symm)
    set l : ℚ := (mx + mn)/2 with hl
    set sv : ℚ := (if l > 1/2 then (mx - mn)/(2 - mx - mn) else (mx - mn)/(mx + mn)) with hsv
    set hv : ℚ := (if mx = R then ((G - B)/(mx - mn) + if G < B then (6:ℚ) else 0)/6
      else if mx = G then ((B - R)/(mx - mn) + 2)/6 else ((R - G)/(mx - mn) + 4)/6) with hhv
    simp only [hslToRgb]
    rw [show hv * 360 / 360 = hv from by ring, show sv * 100 / 100 = sv from by ring,
      show l * 100 / 100 = l from by ring]
    have hspos : 0 < sv := s_pos_eval mx mn l sv hmnlt h0mn h1mx hl hsv
    rw [if_neg hspos.ne']
    rw [q_eval mx mn l sv hmnlt h0mn h1mx hl hsv]
    rw [show 2 * l - mx = mn from by rw [hl]; ring]
    by_cases hxr : mx = R
    · have hhvr : hv = ((G - B)/(mx - mn) + if G < B then (6:ℚ) else 0)/6 := by
        rw [hhv, if_pos hxr]
      obtain ⟨e1, e2, e3⟩ := hue_eval_max_r R G B mn (mx - mn) hv
        (hxr ▸ hGmx) (hxr ▸ hBmx) h0G h0B
        (by rw [hmn]
            exact min_eq_right (le_trans (le_trans (min_le_left G B) hGmx) (le_of_eq hxr)))
        (by rw [hxr]) (hxr ▸ hmnlt) hhvr
      rw [hxr, e1, e2, e3, hR255, hG255, hB255, jsRound_natCast, jsRound_natCast,
        jsRound_natCast]
    · by_cases hxg : mx = G
      · have hRlt : R < mx := lt_of_le_of_ne hRmx (fun h => hxr h.symm)
        have hhvg : hv = ((B - R)/(mx - mn) + 2)/6 := by rw [hhv, if_neg hxr, if_pos hxg]
        obtain ⟨e1, e2, e3⟩ := hue_eval_max_g R G B mn (mx - mn) hv
          (hxg ▸ hRlt) (hxg ▸ hBmx) h0R h0B
          (by rw [hmn]
              have hGB : G ⊓ B = B := min_eq_right (by rw [← hxg]; exact hBmx)
              rw [hGB])
          (by rw [hxg]) (hxg ▸ hmnlt) hhvg
        rw [hxg, e1, e2, e3, hR255, hG255, hB255, jsRound_natCast, jsRound_natCast,
          jsRound_natCast]
      · have hxb : mx = B := by
          rcases max_choice R (max G B) with h | h
          · exact absurd (hmx.trans h) hxr
          · rcases max_choice G B with h2 | h2
            · exact absurd ((hmx.trans h).trans h2) hxg
            · exact (hmx.trans h).trans h2
        have hRlt : R < mx := lt_of_le_of_ne hRmx (fun h => hxr h.symm)
        have hGlt : G < mx := lt_of_le_of_ne hGmx (fun h => hxg h.symm)
        have hhvb : hv = ((R - G)/(mx - mn) + 4)/6 := by rw [hhv, if_neg hxr, if_neg hxg]
        obtain ⟨e1, e2, e3⟩ := hue_eval_max_b R G B mn (mx - mn) hv
          (hxb ▸ hRlt) (hxb ▸ hGlt) h0R h0G
          (by rw [hmn]
              have hGB : G ⊓ B = G := min_eq_left (by rw [← hxb]; exact hGmx)
              rw [hGB])
          (by rw [hxb]) (hxb ▸ hmnlt) hhvb
        rw [hxb, e1, e2, e3, hR255, hG255, hB255, jsRound_natCast, jsRound_natCast,
          jsRound_natCast]

theorem hexDigitVal_le (c : Char) (h : isHexDigitChar c = true) : hexDigitVal c ≤ 15 := by
  have e0 : '0'.toNat = 48 := rfl
  have ea : 'a'.toNat = 97 := rfl
  have eA : 'A'.toNat = 65 := rfl
  unfold hexDigitVal
  by_cases h1 : ('0' ≤ c && c ≤ '9') = true
  · rw [if_pos h1]
    simp only [Bool.and_eq_true, decide_eq_true_eq] at h1
    have h2 := h1.2
    rw [Char.le_def, UInt32.le_def, BitVec.le_def] at h2
    have h3 : c.toNat ≤ 57 := h2
    rw [e0]
    omega
  · rw [if_neg h1]
    by_cases h2 : ('a' ≤ c && c ≤ 'f') = true
    · rw [if_pos h2]
      simp only [Bool.and_eq_true, decide_eq_true_eq] at h2
      have h3 := h2.2
      rw [Char.le_def, UInt32.le_def, BitVec.le_def] at h3
      have h4 : c.toNat ≤ 102 := h3
      rw [ea]
      omega
    · rw [if_neg h2]
      unfold isHexDigitChar at h
      simp only [Bool.or_eq_true, Bool.and_eq_true, decide_eq_true_eq] at h
      rcases h with (h | h) | h
      · exact absurd (by simp [h.1, h.2]) h1
      · exact absurd (by simp [h.1, h.2]) h2
      · have h3 := h.2
        rw [Char.le_def, UInt32.le_def, BitVec.le_def] at h3
        have h4 : c.toNat ≤ 70 := h3
        rw [eA]
        omega

theorem hexToRgb_le (c : String) (rgb : Rgb) (h : hexToRgb c = some rgb) :
    rgb.r ≤ 255 ∧ rgb.g ≤ 255 ∧ rgb.b ≤ 255 := by
  simp only [hexToRgb] at h
  split at h
  · next c1 c2 c3 c4 c5 c6 heq =>
    split at h
    · next hall =>
      simp only [List.all_cons, List.all_nil, Bool.and_eq_true, Bool.and_true] at hall
      obtain ⟨h1, h2, h3, h4, h5, h6⟩ := hall
      have e1 := hexDigitVal_le c1 h1
      have e2 := hexDigitVal_le c2 h2
      have e3 := hexDigitVal_le c3 h3
      have e4 := hexDigitVal_le c4 h4
      have e5 := hexDigitVal_le c5 h5
      have e6 := hexDigitVal_le c6 h6
      cases h
      refine ⟨?_, ?_, ?_⟩
      · show 16 * hexDigitVal c1 + hexDigitVal c2 ≤ 255
        omega
      · show 16 * hexDigitVal c3 + hexDigitVal c4 ≤ 255
        omega
      · show 16 * hexDigitVal c5 + hexDigitVal c6 ≤ 255
        omega
    · exact absurd h (by simp)
  · exact absurd h (by simp)

theorem hexChannelOkB_true : ∀ n : Fin 256, hexChannelOkB n.val = true := by decide

theorem hexChannel_parse (n : ℕ) (h : n ≤ 255) :
    ∃ x y, (hexChannel (n : ℤ)).data = [x, y] ∧ isHexDigitChar x = true
      ∧ isHexDigitChar y = true ∧ 16 * hexDigitVal x + hexDigitVal y = n := by
  have hok := hexChannelOkB_true ⟨n, by omega⟩
  unfold hexChannelOkB at hok
  split at hok
  · next x y heq =>
    simp only [Bool.and_eq_true, beq_iff_eq] at hok
    exact ⟨x, y, heq, hok.1.1, hok.1.2, hok.2⟩
  · exact absurd hok (by simp)

theorem hexToRgb_rgbToHex (r g b : ℕ) (hr : r ≤ 255) (hg : g ≤ 255) (hb : b ≤ 255) :
    hexToRgb (rgbToHex (r:ℤ) (g:ℤ) (b:ℤ)) = some ⟨r, g, b⟩ := by
  obtain ⟨x1, y1, hd1, hx1, hy1, hv1⟩ := hexChannel_parse r hr
  obtain ⟨x2, y2, hd2, hx2, hy2, hv2⟩ := hexChannel_parse g hg
  obtain ⟨x3, y3, hd3, hx3, hy3, hv3⟩ := hexChannel_parse b hb
  have hdata : (rgbToHex (r:ℤ) (g:ℤ) (b:ℤ)).data = '#' :: [x1, y1, x2, y2, x3, y3] := by
    unfold rgbToHex
    rw [String.data_append, String.data_append, String.data_append, hd1, hd2, hd3]
    rfl
  simp only [hexToRgb, hdata]
  simp [hx1, hy1, hx2, hy2, hx3, hy3, hv1, hv2, hv3]

/-- C8: color-space round trip.  For every string that parses as a 6-hex-digit
color, `rgbToHex(hslToRgb(rgbToHsl(hexToRgb(c))))` parses back to channels within
1 unit of the original — in fact the RGB→HSL→RGB conversion pair is exact in the
embedding's exact rational arithmetic, so the distance is 0. -/
theorem c8_round_trip (c : String) (rgb : Rgb) (h : hexToRgb c = some rgb) :
    ∃ rgb2 : Rgb, hexToRgb (hslRoundTrip c) = Option.some rgb2
      ∧ Nat.dist rgb2.r rgb.r ≤ 1 ∧ Nat.dist rgb2.g rgb.g ≤ 1
      ∧ Nat.dist rgb2.b rgb.b ≤ 1 := by
  obtain ⟨hr, hg, hb⟩ := hexToRgb_le c rgb h
  refine ⟨rgb, ?_, by simp [Nat.dist_self], by simp [Nat.dist_self], by simp [Nat.dist_self]⟩
  unfold hslRoundTrip
  rw [h]
  simp only [hslToRgb_rgbToHsl rgb.r rgb.g rgb.b hr hg hb]
  have := hexToRgb_rgbToHex rgb.r rgb.g rgb.b hr hg hb
  simpa using this

/-- C8 witness: the round trip at `#3b82f6`. -/
theorem c8_round_trip_witness :
    ∃ rgb2 : Rgb, hexToRgb (hslRoundTrip "#3b82f6") = Option.some rgb2
      ∧ Nat.dist rgb2.r 59 ≤ 1 ∧ Nat.dist rgb2.g 130 ≤ 1 ∧ Nat.dist rgb2.b 246 ≤ 1 :=
  c8_round_trip "#3b82f6" ⟨59, 130, 246⟩ (by decide)
